import Mathlib

/-!
# NiftyAlert quote endpoint (`src/pages/api/stock.js`)

A shallow embedding of the quote handler: the market-hours check, the Yahoo
response parser, the endpoint fallback loop, the demo-data generator and the
cached request handler.

Modelling conventions.

* JavaScript numbers are exact rationals extended with `NaN` and the two
  infinities. Binary64 rounding error and the sign of zero are outside the
  model; the payload values of the counterexamples below are dyadic rationals
  on which the binary64 operations of the source are exact.
* Strings are Lean strings; `String.prototype.includes` is the infix test on
  their character lists.
* Everything the handler reads from its surroundings (the clock, the random
  generator, the network, the host's time zone and the built-in coercions)
  is an explicit argument.
-/

set_option autoImplicit false

namespace NiftyAlert

/-! ## Numbers -/

/-- A JavaScript number: `NaN`, a finite value, or an infinity (`neg = true` is `-Infinity`). -/
inductive JNum where
  | nan
  | fin (q : ℚ)
  | inf (neg : Bool)
  deriving DecidableEq

namespace JNum

/-- The JavaScript `a * b`. -/
def mul : JNum → JNum → JNum
  | nan, _ => nan
  | _, nan => nan
  | fin a, fin b => fin (a * b)
  | fin a, inf s => if a = 0 then nan else inf (xor s (decide (a < 0)))
  | inf s, fin b => if b = 0 then nan else inf (xor s (decide (b < 0)))
  | inf s, inf t => inf (xor s t)

/-- The JavaScript `a + b`. -/
def add : JNum → JNum → JNum
  | nan, _ => nan
  | _, nan => nan
  | fin a, fin b => fin (a + b)
  | fin _, inf s => inf s
  | inf s, fin _ => inf s
  | inf s, inf t => if s = t then inf s else nan

/-- The JavaScript `a - b`. -/
def sub : JNum → JNum → JNum
  | nan, _ => nan
  | _, nan => nan
  | fin a, fin b => fin (a - b)
  | fin _, inf s => inf (!s)
  | inf s, fin _ => inf s
  | inf s, inf t => if s = t then nan else inf s

/-- The JavaScript `a / b` (a zero divisor is taken as `+0`). -/
def div : JNum → JNum → JNum
  | nan, _ => nan
  | _, nan => nan
  | fin a, fin b =>
    if b = 0 then (if a = 0 then nan else inf (decide (a < 0))) else fin (a / b)
  | fin _, inf _ => fin 0
  | inf s, fin b => inf (xor s (decide (b < 0)))
  | inf _, inf _ => nan

/-- `Math.round` on a finite value: the integer nearest to `x`, ties going up (`⌊x + 1/2⌋`). -/
def roundQ (x : ℚ) : ℤ := ⌊x + 1 / 2⌋

/-- `Math.round`. -/
def round : JNum → JNum
  | nan => nan
  | fin a => fin (roundQ a)
  | inf s => inf s

/-- `Math.floor`. -/
def floor : JNum → JNum
  | nan => nan
  | fin a => fin (⌊a⌋ : ℤ)
  | inf s => inf s

/-- `ToBoolean` on a number: everything but `0` and `NaN` is truthy. -/
def truthy : JNum → Bool
  | nan => false
  | fin a => decide (a ≠ 0)
  | inf _ => true

/-- The comparison `a <= b` (false as soon as one side is `NaN`). -/
def le : JNum → JNum → Bool
  | nan, _ => false
  | _, nan => false
  | fin a, fin b => decide (a ≤ b)
  | fin _, inf s => !s
  | inf s, fin _ => s
  | inf s, inf t => s || !t

end JNum

/-- The idiom `Math.round(x * 100) / 100` used for every two-decimal field. -/
def round2 (x : JNum) : JNum := JNum.div (JNum.round (JNum.mul x (.fin 100))) (.fin 100)

/-- The idiom `Math.round(x * 10000) / 100` used for the percentage. -/
def roundPct (x : JNum) : JNum := JNum.div (JNum.round (JNum.mul x (.fin 10000))) (.fin 100)

/-! ## Values -/

/-- A JavaScript value as `JSON.parse` produces it, plus `undefined`. Object
fields are listed in lookup order (the first field with a given name is the
one a property read sees). -/
inductive JVal where
  | undefined
  | null
  | bool (b : Bool)
  | num (n : JNum)
  | str (s : String)
  | arr (xs : List JVal)
  | obj (fields : List (String × JVal))

/-- Behaviour of the host the handler runs on: built-ins whose definition
lies outside the repository. -/
structure Host where
  /-- `String.prototype.toUpperCase`. -/
  toUpperCase : String → String
  /-- Offset of the host's local time zone at a UTC time value, in ms. -/
  localTZA : Int → Int
  /-- `ToNumber` on a string. -/
  stringToNumber : String → JNum
  /-- `ToNumber` on an array or object (`none` when the coercion throws). -/
  objectToNumber : JVal → Option JNum

namespace JVal

/-- `ToBoolean`. -/
def truthy : JVal → Bool
  | undefined => false
  | null => false
  | bool b => b
  | num n => n.truthy
  | str s => decide (s ≠ "")
  | arr _ => true
  | obj _ => true

/-- Whether the value is `null` or `undefined`. -/
def nullish : JVal → Bool
  | undefined => true
  | null => true
  | _ => false

/-- Own-field lookup in a field list. -/
def lookup (name : String) : List (String × JVal) → JVal
  | [] => undefined
  | (k, v) :: rest => if k = name then v else lookup name rest

/-- The property read `v.name` for a name that no built-in prototype
defines (all the names read by the parser): throws on `null` and
`undefined`, is `undefined` on the other primitives and on arrays. -/
def getProp (v : JVal) (name : String) : Except Unit JVal :=
  match v with
  | undefined => .error ()
  | null => .error ()
  | obj fs => .ok (lookup name fs)
  | _ => .ok undefined

/-- The optional read `v?.name`. -/
def optProp (v : JVal) (name : String) : JVal :=
  match v with
  | obj fs => lookup name fs
  | _ => undefined

/-- The optional index read `v?.[0]`. -/
def optIndex0 (v : JVal) : JVal :=
  match v with
  | arr xs => xs.headD undefined
  | obj fs => lookup "0" fs
  | str s => match s.toList with
    | [] => undefined
    | c :: _ => str (String.singleton c)
  | _ => undefined

/-- The operator `a || b`. -/
def orElse (a b : JVal) : JVal := if a.truthy then a else b

/-- `ToNumber` (`none` when the coercion throws). -/
def toNumber (h : Host) : JVal → Option JNum
  | undefined => some .nan
  | null => some (.fin 0)
  | bool b => some (.fin (if b then 1 else 0))
  | num n => some n
  | str s => some (h.stringToNumber s)
  | v => h.objectToNumber v

end JVal

/-! ## Market hours -/

/-- `Date.prototype.getDay` on a local time value: `(Day(t) + 4) mod 7`, Sunday is 0. -/
def weekDay (t : Int) : Int := (t / 86400000 + 4) % 7

/-- `HourFromTime`. -/
def hourFromTime (t : Int) : Int := (t / 3600000) % 24

/-- `MinFromTime`. -/
def minFromTime (t : Int) : Int := (t / 60000) % 60

/-- `LocalTime(t)`: the time value the local getters (`getHours`, `getMinutes`, `getDay`) decompose. -/
def localTime (h : Host) (t : Int) : Int := t + h.localTZA t

/-- The function `isMarketOpen`, with `now` the time value of `new Date()`. -/
def isMarketOpen (h : Host) (now : Int) : Bool :=
  let istTime := now + 19800000
  let hours := hourFromTime (localTime h istTime)
  let minutes := minFromTime (localTime h istTime)
  let day := weekDay (localTime h istTime)
  if day = 0 ∨ day = 6 then false
  else
    let currentMinutes := hours * 60 + minutes
    let marketStart : Int := 9 * 60 + 15
    let marketEnd : Int := 15 * 60 + 30
    decide (currentMinutes ≥ marketStart) && decide (currentMinutes ≤ marketEnd)

/-! ## Demo data -/

/-- `String.prototype.includes` on character lists. -/
def includesList (frag : List Char) : List Char → Bool
  | [] => frag.isEmpty
  | c :: cs => frag.isPrefixOf (c :: cs) || includesList frag cs

/-- `symbol.includes(frag)`. -/
def includes (symbol frag : String) : Bool := includesList frag.toList symbol.toList

/-- The `basePrice` chain of conditionals in `generateDemoData`. -/
def basePrice (symbol : String) : ℚ :=
  if includes symbol "NSEI" then 25000
  else if includes symbol "BSESN" then 82000
  else if includes symbol "BANK" then 52000
  else if includes symbol "RELIANCE" then 2800
  else if includes symbol "TCS" then 4200
  else if includes symbol "HDFC" then 1800
  else 1000

/-- One value returned by `Math.random()`: a number in `[0, 1)`. -/
structure Draw where
  val : ℚ
  nonneg : 0 ≤ val
  lt_one : val < 1

/-- The normalised quote record. `timestamp` is the time value that
`toISOString` prints; `isDemo` and `fromCache` are `false` when the field is
absent from the object. -/
structure Quote where
  price : JNum
  previousClose : JNum
  change : JNum
  changePercent : JNum
  dayHigh : JNum
  dayLow : JNum
  volume : JVal
  marketState : JVal
  currency : JVal
  symbol : JVal
  timestamp : Int
  isDemo : Bool
  fromCache : Bool

/-- What `axios.get` does for one endpoint: the promise rejects (transport
error or non-2xx status), the 8 s timeout fires, or a response arrives whose
`data` is the parsed body (a string when the body is not JSON). -/
inductive Upstream where
  | rejected
  | timedOut
  | response (data : JVal)

/-- Everything one request reads from outside: the network's answer per
URL, each clock read, and the two `Math.random()` draws. -/
structure Env where
  net : String → Upstream
  /-- `Date.now()` in the cache check. -/
  nowCheck : Int
  /-- `new Date()` in `parseYahooResponse`. -/
  nowParse : Int
  /-- `Math.random()` for `variation`. -/
  rand1 : Draw
  /-- `Math.random()` for `volume`. -/
  rand2 : Draw
  /-- `new Date()` in `isMarketOpen`. -/
  nowMarket : Int
  /-- `new Date()` for the demo `timestamp`. -/
  nowDemo : Int
  /-- `Date.now()` in `cache.set`. -/
  nowStore : Int

/-- The function `generateDemoData`. -/
def generateDemoData (h : Host) (env : Env) (symbol : String) : Quote :=
  let base : JNum := .fin (basePrice symbol)
  let variation := JNum.mul (JNum.sub (.fin env.rand1.val) (.fin (1 / 2))) (.fin (2 / 100))
  let price := round2 (JNum.mul base (JNum.add (.fin 1) variation))
  let previousClose := round2 base
  let change := round2 (JNum.sub price previousClose)
  let changePercent := roundPct (JNum.div change previousClose)
  { price := price
    previousClose := previousClose
    change := change
    changePercent := changePercent
    dayHigh := round2 (JNum.mul price (.fin (101 / 100)))
    dayLow := round2 (JNum.mul price (.fin (99 / 100)))
    volume := .num (JNum.floor (JNum.mul (.fin env.rand2.val) (.fin 10000000)))
    marketState := .str (if isMarketOpen h env.nowMarket then "REGULAR" else "CLOSED")
    currency := .str "INR"
    symbol := .str symbol
    timestamp := env.nowDemo
    isDemo := true
    fromCache := false }

/-! ## Parsing the upstream payload -/

/-- `ToNumber` as a step that may throw. -/
def toNum (h : Host) (v : JVal) : Except Unit JNum :=
  match v.toNumber h with
  | some n => .ok n
  | none => .error ()

/-- The `try` block of `parseYahooResponse`; `.error` is a thrown exception. -/
def parseYahooBody (h : Host) (now : Int) (data : JVal) : Except Unit (Option Quote) := do
  let result := ((data.optProp "chart").optProp "result").optIndex0
  if !result.truthy then return none
  let meta ← result.getProp "meta"
  let regularMarketPrice ← meta.getProp "regularMarketPrice"
  let metaPreviousClose ← meta.getProp "previousClose"
  let chartPreviousClose ← meta.getProp "chartPreviousClose"
  let price := regularMarketPrice.orElse metaPreviousClose
  let previousClose := metaPreviousClose.orElse chartPreviousClose
  if !price.truthy then return none
  let p ← toNum h price
  if p.le (.fin 0) then return none
  let c ← toNum h previousClose
  let high ← toNum h ((← meta.getProp "regularMarketDayHigh").orElse price)
  let low ← toNum h ((← meta.getProp "regularMarketDayLow").orElse price)
  return some
    { price := round2 p
      previousClose := round2 c
      change := round2 (JNum.sub p c)
      changePercent := roundPct (JNum.div (JNum.sub p c) c)
      dayHigh := round2 high
      dayLow := round2 low
      volume := (← meta.getProp "regularMarketVolume").orElse (.num (.fin 0))
      marketState := (← meta.getProp "marketState").orElse (.str "UNKNOWN")
      currency := (← meta.getProp "currency").orElse (.str "INR")
      symbol := ← meta.getProp "symbol"
      timestamp := now
      isDemo := false
      fromCache := false }

/-- The function `parseYahooResponse`: the `catch` turns every exception into `null`. -/
def parseYahooResponse (h : Host) (now : Int) (data : JVal) : Option Quote :=
  match parseYahooBody h now data with
  | .ok r => r
  | .error _ => none

/-! ## Fetching -/

/-- The three endpoint URLs, in the order they are tried. -/
def endpoints (symbol : String) : List String :=
  [ "https://query1.finance.yahoo.com/v8/finance/chart/" ++ symbol,
    "https://query2.finance.yahoo.com/v8/finance/chart/" ++ symbol,
    "https://finance.yahoo.com/chart/" ++ symbol ]

/-- The `for` loop of `fetchStockData`: the quote found, if any, and the
URLs requested. -/
def tryEndpoints (h : Host) (env : Env) : List String → Option Quote × List String
  | [] => (none, [])
  | endpoint :: rest =>
    match env.net endpoint with
    | .response data =>
      if data.truthy && (data.optProp "chart").truthy then
        match parseYahooResponse h env.nowParse data with
        | some parsed => (some parsed, [endpoint])
        | none => ((tryEndpoints h env rest).1, endpoint :: (tryEndpoints h env rest).2)
      else ((tryEndpoints h env rest).1, endpoint :: (tryEndpoints h env rest).2)
    | _ => ((tryEndpoints h env rest).1, endpoint :: (tryEndpoints h env rest).2)

/-- The function `fetchStockData`. -/
def fetchStockData (h : Host) (env : Env) (symbol : String) : Option Quote × List String :=
  tryEndpoints h env (endpoints symbol)

/-! ## The cache and the handler -/

/-- A cache entry: `{ data, timestamp }`. -/
structure CacheEntry where
  data : Quote
  timestamp : Int

/-- The module-level `Map`, as its entries in insertion order. -/
abbrev Cache := List (String × CacheEntry)

/-- `Map.prototype.get`. -/
def Cache.get : Cache → String → Option CacheEntry
  | [], _ => none
  | (k, e) :: rest, key => if k = key then some e else Cache.get rest key

/-- `Map.prototype.set`: overwrite the entry of an existing key in place, else append. -/
def Cache.set : Cache → String → CacheEntry → Cache
  | [], key, e => [(key, e)]
  | (k, e0) :: rest, key, e =>
    if k = key then (k, e) :: rest else (k, e0) :: Cache.set rest key e

/-- The constant `CACHE_DURATION`. -/
def CACHE_DURATION : Int := 30 * 1000

/-- The value of `req.query.symbol`: absent, one string, or an array when the
parameter is repeated. -/
inductive QueryParam where
  | missing
  | single (s : String)
  | multi (xs : List String)

/-- `ToBoolean` on the query parameter. -/
def QueryParam.truthy : QueryParam → Bool
  | .missing => false
  | .single s => decide (s ≠ "")
  | .multi _ => true

/-- The request fields the handler reads. -/
structure Request where
  method : String
  symbol : QueryParam

/-- A JSON response body. -/
inductive Body where
  | error (message : String)
  | quote (q : Quote)

/-- What `res.status(..).json(..)` sent. -/
structure Response where
  status : Nat
  body : Body

/-- Outcome of one handled request: the response, the cache afterwards and
the upstream URLs that were requested. -/
structure Result where
  response : Response
  cache : Cache
  attempts : List String

/-- The `try` block of `handler`. -/
def handlerTry (h : Host) (env : Env) (cache : Cache) (symbol cacheKey : String) :
    Except Unit Result :=
  let fetched := fetchStockData h env symbol
  match fetched.1 with
  | some liveData =>
    .ok { response := ⟨200, .quote liveData⟩
          cache := cache.set cacheKey ⟨liveData, env.nowStore⟩
          attempts := fetched.2 }
  | none =>
    let demoData := generateDemoData h env symbol
    .ok { response := ⟨200, .quote demoData⟩
          cache := cache.set cacheKey ⟨demoData, env.nowStore⟩
          attempts := fetched.2 }

/-- The cache-miss path of `handler`: the `try` block with its `catch`. -/
def handlerMiss (h : Host) (env : Env) (cache : Cache) (symbol cacheKey : String) : Result :=
  match handlerTry h env cache symbol cacheKey with
  | .ok r => r
  | .error _ =>
    { response := ⟨200, .quote (generateDemoData h env symbol)⟩
      cache := cache
      attempts := [] }

/-- The function `handler`. `.error` is an exception that escapes it (the
framework then answers 500). -/
def handler (h : Host) (env : Env) (cache : Cache) (req : Request) : Except Unit Result :=
  if req.method ≠ "GET" then
    .ok ⟨⟨405, .error "Method not allowed"⟩, cache, []⟩
  else if !req.symbol.truthy then
    .ok ⟨⟨400, .error "Symbol parameter is required"⟩, cache, []⟩
  else
    match req.symbol with
    | .single symbol =>
      let cacheKey := h.toUpperCase symbol
      match cache.get cacheKey with
      | some cached =>
        if env.nowCheck - cached.timestamp < CACHE_DURATION then
          .ok ⟨⟨200, .quote { cached.data with fromCache := true }⟩, cache, []⟩
        else .ok (handlerMiss h env cache symbol cacheKey)
      | none => .ok (handlerMiss h env cache symbol cacheKey)
    | _ => .error ()

/-! ## Reference definitions and sample inputs -/

/-- The fragment table of the base-price lookup in the order it is scanned. -/
def fragmentTable : List (String × ℚ) :=
  [("NSEI", 25000), ("BSESN", 82000), ("BANK", 52000), ("RELIANCE", 2800), ("TCS", 4200),
   ("HDFC", 1800)]

/-- First-match scan of `fragmentTable`: the value of the earliest fragment
that occurs in the symbol as a contiguous run of characters, `1000` if none does. -/
def firstMatchBase (symbol : String) : ℚ :=
  match fragmentTable.find? (fun entry => decide (entry.1.toList <:+: symbol.toList)) with
  | some entry => entry.2
  | none => 1000

/-- ASCII upper-casing, on which `toUpperCase` agrees for ASCII strings. -/
def asciiUpper (s : String) : String := String.mk (s.toList.map Char.toUpper)

/-- A host whose local time zone is UTC. -/
def utcHost : Host :=
  { toUpperCase := asciiUpper
    localTZA := fun _ => 0
    stringToNumber := fun _ => .nan
    objectToNumber := fun _ => some .nan }

/-- A host whose local time zone is Asia/Kolkata (UTC+5:30 all year). -/
def kolkataHost : Host :=
  { toUpperCase := asciiUpper
    localTZA := fun _ => 19800000
    stringToNumber := fun _ => .nan
    objectToNumber := fun _ => some .nan }

/-- A host whose local time zone is America/New_York in winter (UTC-5). -/
def newYorkHost : Host :=
  { toUpperCase := asciiUpper
    localTZA := fun _ => -18000000
    stringToNumber := fun _ => .nan
    objectToNumber := fun _ => some .nan }

/-- The time value of 2024-01-03T06:30:00Z, a Wednesday at 12:00 exchange time. -/
def wednesdayNoon : Int := 1704263400000

/-- The time value of 2024-01-03T04:30:00Z, a Wednesday at 10:00 exchange time. -/
def wednesdayTen : Int := 1704256200000

/-- The quote a cache miss produces: the live one when an endpoint yields
it, else the demo one. -/
def freshQuote (h : Host) (env : Env) (symbol : String) : Quote :=
  match (fetchStockData h env symbol).1 with
  | some liveData => liveData
  | none => generateDemoData h env symbol

/-- A GET request for one symbol string. -/
def getRequest (symbol : String) : Request := ⟨"GET", .single symbol⟩

/-- The cache after handling a request (an escaping exception leaves the `Map` as it was). -/
def cacheAfter (h : Host) (env : Env) (cache : Cache) (req : Request) : Cache :=
  match handler h env cache req with
  | .ok r => r.cache
  | .error _ => cache

/-- The cache after handling a sequence of requests one after the other. -/
def cacheAfterAll (h : Host) (cache : Cache) : List (Env × Request) → Cache
  | [] => cache
  | (env, req) :: rest => cacheAfterAll h (cacheAfter h env cache req) rest

/-- Whether a request reads or writes the cache entry of `key`. -/
def touchesKey (h : Host) (key : String) (req : Request) : Prop :=
  ∃ symbol, req.symbol = .single symbol ∧ h.toUpperCase symbol = key

/-- An environment in which every endpoint rejects, with the given clock reads. -/
def failingEnv (nowCheck nowStore : Int) : Env :=
  { net := fun _ => .rejected
    nowCheck := nowCheck
    nowParse := 0
    rand1 := ⟨1 / 2, by norm_num, by norm_num⟩
    rand2 := ⟨0, by norm_num, by norm_num⟩
    nowMarket := wednesdayNoon
    nowDemo := 0
    nowStore := nowStore }

/-- The expression `data?.chart?.result?.[0]`. -/
def resultOf (data : JVal) : JVal := ((data.optProp "chart").optProp "result").optIndex0

/-- The `meta` object of a payload (`undefined` when the path to it is missing). -/
def metaOf (data : JVal) : JVal := (resultOf data).optProp "meta"

/-- A field of the `meta` object. -/
def metaField (data : JVal) (name : String) : JVal := (metaOf data).optProp name

/-- The unrounded `price`: `meta.regularMarketPrice || meta.previousClose`. -/
def priceOf (data : JVal) : JVal :=
  (metaField data "regularMarketPrice").orElse (metaField data "previousClose")

/-- The unrounded `previousClose`: `meta.previousClose || meta.chartPreviousClose`. -/
def previousCloseOf (data : JVal) : JVal :=
  (metaField data "previousClose").orElse (metaField data "chartPreviousClose")

/-- The unrounded day high: `meta.regularMarketDayHigh || price`. -/
def dayHighOf (data : JVal) : JVal :=
  (metaField data "regularMarketDayHigh").orElse (priceOf data)

/-- The unrounded day low: `meta.regularMarketDayLow || price`. -/
def dayLowOf (data : JVal) : JVal :=
  (metaField data "regularMarketDayLow").orElse (priceOf data)

/-- The quote `parseYahooResponse` builds from the four converted numbers. -/
def parsedQuote (now : Int) (data : JVal) (p c high low : JNum) : Quote :=
  { price := round2 p
    previousClose := round2 c
    change := round2 (JNum.sub p c)
    changePercent := roundPct (JNum.div (JNum.sub p c) c)
    dayHigh := round2 high
    dayLow := round2 low
    volume := (metaField data "regularMarketVolume").orElse (.num (.fin 0))
    marketState := (metaField data "marketState").orElse (.str "UNKNOWN")
    currency := (metaField data "currency").orElse (.str "INR")
    symbol := metaField data "symbol"
    timestamp := now
    isDemo := false
    fromCache := false }

/-- A stored quote for the sample cache states. -/
def sampleQuote : Quote :=
  { price := .fin 4200
    previousClose := .fin 4200
    change := .fin 0
    changePercent := .fin 0
    dayHigh := .fin 4242
    dayLow := .fin 4158
    volume := .num (.fin 0)
    marketState := .str "CLOSED"
    currency := .str "INR"
    symbol := .str "TCS.NS"
    timestamp := 0
    isDemo := true
    fromCache := false }

theorem includesList_iff (frag s : List Char) : includesList frag s = true ↔ frag <:+: s := by
  induction s with
  | nil => simp [includesList, List.isEmpty_iff]
  | cons c cs ih =>
    rw [includesList, Bool.or_eq_true, ih, List.isPrefixOf_iff_prefix, List.infix_cons_iff]

theorem includes_iff (symbol frag : String) :
    includes symbol frag = true ↔ frag.toList <:+: symbol.toList :=
  includesList_iff _ _

theorem basePrice_eq_firstMatch (symbol : String) : basePrice symbol = firstMatchBase symbol := by
  have key : ∀ frag : String,
      decide (frag.toList <:+: symbol.toList) = includes symbol frag := by
    intro frag
    by_cases hf : includes symbol frag = true
    · rw [hf]; exact decide_eq_true ((includes_iff _ _).1 hf)
    · rw [Bool.not_eq_true] at hf
      rw [hf]
      exact decide_eq_false (fun hc => by rw [← includes_iff, hf] at hc; exact Bool.noConfusion hc)
  unfold basePrice firstMatchBase fragmentTable
  simp only [List.find?, key]
  cases includes symbol "NSEI" <;> cases includes symbol "BSESN" <;>
    cases includes symbol "BANK" <;> cases includes symbol "RELIANCE" <;>
    cases includes symbol "TCS" <;> cases includes symbol "HDFC" <;> rfl

/-- C9: the base price of `generateDemoData` is a first-match scan of the
fragments NSEI, BSESN, BANK, RELIANCE, TCS, HDFC (default 1000) by
case-sensitive substring; a symbol with BANK and neither NSEI nor BSESN gets
52000 whatever else it contains, so do HDFCBANK.NS and ICICIBANK.NS (while the
lower-case hdfcbank.ns matches nothing), and 1800 is returned exactly for
symbols with HDFC and none of the five earlier fragments. -/
theorem basePrice_first_match :
    (∀ symbol, basePrice symbol = firstMatchBase symbol) ∧
    (∀ symbol, includes symbol "BANK" = true → includes symbol "NSEI" = false →
      includes symbol "BSESN" = false → basePrice symbol = 52000) ∧
    basePrice "HDFCBANK.NS" = 52000 ∧ includes "HDFCBANK.NS" "HDFC" = true ∧
    basePrice "ICICIBANK.NS" = 52000 ∧ basePrice "hdfcbank.ns" = 1000 ∧
    (∀ symbol, basePrice symbol = 1800 ↔
      (includes symbol "HDFC" = true ∧ includes symbol "NSEI" = false ∧
        includes symbol "BSESN" = false ∧ includes symbol "BANK" = false ∧
        includes symbol "RELIANCE" = false ∧ includes symbol "TCS" = false)) := by
  refine ⟨basePrice_eq_firstMatch, ?_, by decide, by decide, by decide, by decide, ?_⟩
  · intro symbol hb hn hs
    simp [basePrice, hb, hn, hs]
  · intro symbol
    unfold basePrice
    cases includes symbol "NSEI" <;> cases includes symbol "BSESN" <;>
      cases includes symbol "BANK" <;> cases includes symbol "RELIANCE" <;>
      cases includes symbol "TCS" <;> cases includes symbol "HDFC" <;> norm_num

/-- C9 at a concrete symbol: AXISBANK.NS has BANK and neither index fragment. -/
theorem basePrice_first_match_witness : basePrice "AXISBANK.NS" = 52000 :=
  basePrice_first_match.2.1 "AXISBANK.NS" (by decide) (by decide) (by decide)

/-! ## Market hours -/

/-- C8: the answer of `isMarketOpen` depends on the host's zone. For
Wednesday 2024-01-03 at 10:00 exchange time it is "closed" on a New York host
and "open" on a UTC host; for 12:00 exchange time of the same day it is
"closed" on a Kolkata host and "open" on a UTC host. -/
theorem isMarketOpen_depends_on_host_zone :
    isMarketOpen newYorkHost wednesdayTen = false ∧
    isMarketOpen utcHost wednesdayTen = true ∧
    weekDay (wednesdayTen + 19800000) = 3 ∧
    hourFromTime (wednesdayTen + 19800000) = 10 ∧
    minFromTime (wednesdayTen + 19800000) = 0 ∧
    isMarketOpen kolkataHost wednesdayNoon = false ∧
    isMarketOpen utcHost wednesdayNoon = true ∧
    weekDay (wednesdayNoon + 19800000) = 3 ∧
    hourFromTime (wednesdayNoon + 19800000) = 12 ∧
    minFromTime (wednesdayNoon + 19800000) = 0 := by
  decide

/-- On a host whose zone offset is zero, `isMarketOpen` is the exchange-time
rule: closed on Saturday and Sunday, otherwise open exactly from 09:15 to 15:30
inclusive of the time shifted by +5:30. -/
theorem isMarketOpen_on_utc_host (h : Host) (now : Int)
    (hz : h.localTZA (now + 19800000) = 0) :
    isMarketOpen h now = true ↔
      (weekDay (now + 19800000) ≠ 0 ∧ weekDay (now + 19800000) ≠ 6 ∧
        555 ≤ hourFromTime (now + 19800000) * 60 + minFromTime (now + 19800000) ∧
        hourFromTime (now + 19800000) * 60 + minFromTime (now + 19800000) ≤ 930) := by
  simp only [isMarketOpen, localTime, hz, add_zero]
  split_ifs with hd
  · constructor
    · intro hc; exact hc.elim
    · rintro ⟨h0, h6, -, -⟩; rcases hd with hd | hd
      · exact absurd hd h0
      · exact absurd hd h6
  · simp only [not_or] at hd
    simp only [Bool.and_eq_true, decide_eq_true_eq, ge_iff_le]
    constructor
    · rintro ⟨h1, h2⟩; exact ⟨hd.1, hd.2, by omega, by omega⟩
    · rintro ⟨-, -, h1, h2⟩; exact ⟨by omega, by omega⟩

/-! ## The cache -/

theorem Cache.get_set_same (c : Cache) (k : String) (e : CacheEntry) :
    (c.set k e).get k = some e := by
  induction c with
  | nil => simp [Cache.set, Cache.get]
  | cons hd tl ih =>
    obtain ⟨k0, e0⟩ := hd
    by_cases hk : k0 = k
    · simp [Cache.set, Cache.get, hk]
    · simp [Cache.set, Cache.get, hk, ih]

theorem Cache.get_set_ne (c : Cache) (k k1 : String) (e : CacheEntry) (hne : k1 ≠ k) :
    (c.set k e).get k1 = c.get k1 := by
  induction c with
  | nil => simp [Cache.set, Cache.get, Ne.symm hne]
  | cons hd tl ih =>
    obtain ⟨k0, e0⟩ := hd
    by_cases hk : k0 = k
    · subst hk
      simp [Cache.set, Cache.get, Ne.symm hne]
    · by_cases hk1 : k0 = k1
      · simp [Cache.set, Cache.get, hk, hk1]
        simp [← hk1, hk, Cache.get]
      · simp [Cache.set, Cache.get, hk, hk1, ih]

theorem Cache.keys_set_of_get_some (c : Cache) (k : String) (e e0 : CacheEntry)
    (hget : c.get k = some e0) : (c.set k e).map Prod.fst = c.map Prod.fst := by
  induction c with
  | nil => simp [Cache.get] at hget
  | cons hd tl ih =>
    obtain ⟨k0, e1⟩ := hd
    by_cases hk : k0 = k
    · simp [Cache.set, hk]
    · simp only [Cache.get, hk, if_false] at hget
      simp [Cache.set, hk, ih hget]

theorem Cache.mem_keys_of_get_some (c : Cache) (k : String) (e0 : CacheEntry)
    (hget : c.get k = some e0) : k ∈ c.map Prod.fst := by
  induction c with
  | nil => simp [Cache.get] at hget
  | cons hd tl ih =>
    obtain ⟨k0, e1⟩ := hd
    by_cases hk : k0 = k
    · simp [hk]
    · simp only [Cache.get, hk, if_false] at hget
      simp [ih hget]

theorem Cache.keys_set_of_get_none (c : Cache) (k : String) (e : CacheEntry)
    (hget : c.get k = none) : (c.set k e).map Prod.fst = c.map Prod.fst ++ [k] := by
  induction c with
  | nil => simp [Cache.set]
  | cons hd tl ih =>
    obtain ⟨k0, e1⟩ := hd
    by_cases hk : k0 = k
    · simp [Cache.get, hk] at hget
    · simp only [Cache.get, hk, if_false] at hget
      simp [Cache.set, hk, ih hget]

theorem Cache.not_mem_keys_of_get_none (c : Cache) (k : String)
    (hget : c.get k = none) : k ∉ c.map Prod.fst := by
  induction c with
  | nil => simp
  | cons hd tl ih =>
    obtain ⟨k0, e1⟩ := hd
    by_cases hk : k0 = k
    · simp [Cache.get, hk] at hget
    · simp only [Cache.get, hk, if_false] at hget
      simp only [List.map_cons, List.mem_cons, not_or]
      exact ⟨Ne.symm hk, ih hget⟩

/-- `Map.set` keeps the keys distinct. -/
theorem Cache.nodup_keys_set (c : Cache) (k : String) (e : CacheEntry)
    (hc : (c.map Prod.fst).Nodup) : ((c.set k e).map Prod.fst).Nodup := by
  cases hget : c.get k with
  | some e0 => rw [Cache.keys_set_of_get_some c k e e0 hget]; exact hc
  | none =>
    rw [Cache.keys_set_of_get_none c k e hget]
    have hnot := Cache.not_mem_keys_of_get_none c k hget
    rw [List.nodup_append]
    refine ⟨hc, List.nodup_singleton k, ?_⟩
    intro a ha hb
    rw [List.mem_singleton] at hb
    subst hb
    exact hnot ha

/-- After `Map.set` the key occurs exactly once among the keys when they were distinct. -/
theorem Cache.count_key_set (c : Cache) (k : String) (e : CacheEntry)
    (hc : (c.map Prod.fst).Nodup) : ((c.set k e).map Prod.fst).count k = 1 := by
  apply List.count_eq_one_of_mem (Cache.nodup_keys_set c k e hc)
  exact Cache.mem_keys_of_get_some _ k e (Cache.get_set_same c k e)

/-! ## The handler -/

theorem handlerMiss_eq (h : Host) (env : Env) (cache : Cache) (symbol key : String) :
    handlerMiss h env cache symbol key =
      { response := ⟨200, .quote (freshQuote h env symbol)⟩
        cache := cache.set key ⟨freshQuote h env symbol, env.nowStore⟩
        attempts := (fetchStockData h env symbol).2 } := by
  unfold handlerMiss handlerTry freshQuote
  generalize fetchStockData h env symbol = fetched
  obtain ⟨live, attempts⟩ := fetched
  cases live <;> rfl

/-- A GET for a non-empty symbol string: served from the cache when a fresh
entry exists, else through the miss path. -/
theorem handler_get (h : Host) (env : Env) (cache : Cache) (symbol : String)
    (hs : symbol ≠ "") :
    handler h env cache (getRequest symbol) =
      .ok (match cache.get (h.toUpperCase symbol) with
        | some cached =>
          if env.nowCheck - cached.timestamp < CACHE_DURATION then
            ⟨⟨200, .quote { cached.data with fromCache := true }⟩, cache, []⟩
          else handlerMiss h env cache symbol (h.toUpperCase symbol)
        | none => handlerMiss h env cache symbol (h.toUpperCase symbol)) := by
  simp only [handler, getRequest, QueryParam.truthy, ne_eq, not_true_eq_false, if_false, hs,
    not_false_eq_true, decide_True, Bool.not_true, Bool.false_eq_true]
  cases cache.get (h.toUpperCase symbol) with
  | none => rfl
  | some cached => by_cases hc : env.nowCheck - cached.timestamp < CACHE_DURATION <;> simp [hc]

/-- The first endpoint is always requested on a miss. -/
theorem fetchStockData_attempts_head (h : Host) (env : Env) (symbol : String) :
    (fetchStockData h env symbol).2.head? =
      some ("https://query1.finance.yahoo.com/v8/finance/chart/" ++ symbol) := by
  unfold fetchStockData endpoints
  rw [tryEndpoints]
  split
  · split
    · split <;> rfl
    · rfl
  · rfl

/-- C1: the status is fixed by the request: 405 for every method other than
GET, 400 for a GET whose symbol is missing or empty, and for a GET with a
non-empty symbol string a 200 with a quote body, for every cache and every
behaviour of the three endpoints; no exception escapes in these cases. -/
theorem handler_status (h : Host) (env : Env) (cache : Cache) (req : Request) :
    (req.method ≠ "GET" →
      handler h env cache req = .ok ⟨⟨405, .error "Method not allowed"⟩, cache, []⟩) ∧
    (req.method = "GET" → (req.symbol = .missing ∨ req.symbol = .single "") →
      handler h env cache req =
        .ok ⟨⟨400, .error "Symbol parameter is required"⟩, cache, []⟩) ∧
    (req.method = "GET" → ∀ symbol, symbol ≠ "" → req.symbol = .single symbol →
      ∃ q cache1 attempts,
        handler h env cache req = .ok ⟨⟨200, .quote q⟩, cache1, attempts⟩) := by
  refine ⟨?_, ?_, ?_⟩
  · intro hm
    simp [handler, hm]
  · intro hm hsym
    rcases hsym with hsym | hsym <;> simp [handler, hm, hsym, QueryParam.truthy]
  · intro hm symbol hs hsym
    have hreq : req = getRequest symbol := by
      cases req; simp only [getRequest] at *; simp [hm, hsym]
    rw [hreq, handler_get h env cache symbol hs]
    cases cache.get (h.toUpperCase symbol) with
    | none => exact ⟨_, _, _, by rw [handlerMiss_eq]⟩
    | some cached =>
      by_cases hc : env.nowCheck - cached.timestamp < CACHE_DURATION
      · exact ⟨{ cached.data with fromCache := true }, cache, [], by simp only [hc, if_true]⟩
      · exact ⟨_, _, _, by simp only [hc, if_false]; rw [handlerMiss_eq]⟩

/-- C1 at a concrete request: POST is answered 405, a GET without symbol 400,
and a GET for TCS.NS with every endpoint rejecting 200 with a quote. -/
theorem handler_status_witness :
    handler utcHost (failingEnv 0 0) [] ⟨"POST", .single "TCS.NS"⟩ =
        .ok ⟨⟨405, .error "Method not allowed"⟩, [], []⟩ ∧
    handler utcHost (failingEnv 0 0) [] ⟨"GET", .missing⟩ =
        .ok ⟨⟨400, .error "Symbol parameter is required"⟩, [], []⟩ ∧
    ∃ q cache1 attempts, handler utcHost (failingEnv 0 0) [] ⟨"GET", .single "TCS.NS"⟩ =
        .ok ⟨⟨200, .quote q⟩, cache1, attempts⟩ :=
  ⟨(handler_status utcHost (failingEnv 0 0) [] ⟨"POST", .single "TCS.NS"⟩).1 (by decide),
   (handler_status utcHost (failingEnv 0 0) [] ⟨"GET", .missing⟩).2.1 rfl (Or.inl rfl),
   (handler_status utcHost (failingEnv 0 0) [] ⟨"GET", .single "TCS.NS"⟩).2.2 rfl "TCS.NS"
     (by decide) rfl⟩

/-! ## The parser -/

theorem JVal.getProp_eq (v : JVal) (name : String) :
    v.getProp name = if v.nullish then .error () else .ok (v.optProp name) := by
  cases v <;> rfl

theorem JVal.nullish_of_not_truthy_false (v : JVal) (hv : v.truthy = true) :
    v.nullish = false := by
  cases v <;> simp_all [JVal.truthy, JVal.nullish]

/-- Closed form of `parseYahooResponse`. -/
theorem parseYahooResponse_eq (h : Host) (now : Int) (data : JVal) :
    parseYahooResponse h now data =
      if (resultOf data).truthy = true ∧ (metaOf data).nullish = false ∧
          (priceOf data).truthy = true then
        match (priceOf data).toNumber h, (previousCloseOf data).toNumber h,
            (dayHighOf data).toNumber h, (dayLowOf data).toNumber h with
        | some p, some c, some high, some low =>
          if p.le (.fin 0) then none else some (parsedQuote now data p c high low)
        | _, _, _, _ => none
      else none := by
  unfold parseYahooResponse parseYahooBody
  simp only [JVal.getProp_eq, priceOf, previousCloseOf, dayHighOf, dayLowOf, parsedQuote,
    metaField, metaOf, resultOf]
  generalize ((data.optProp "chart").optProp "result").optIndex0 = result
  by_cases hr : result.truthy = true
  · have hrn := JVal.nullish_of_not_truthy_false result hr
    simp only [hr, hrn]
    generalize result.optProp "meta" = meta
    cases hm : meta.nullish
    · simp only [bind, Except.bind, pure, Except.pure, toNum, Bool.not_true, Bool.false_eq_true,
        if_false, hm, true_and]
      generalize (meta.optProp "regularMarketPrice").orElse (meta.optProp "previousClose") = price
      cases hp : price.truthy
      · simp
      · simp only [Bool.not_true, Bool.false_eq_true, if_false, if_true]
        cases JVal.toNumber h price with
        | none => simp
        | some p =>
          simp only []
          cases hle : p.le (.fin 0)
          · simp only [Bool.false_eq_true, if_false]
            cases JVal.toNumber h
              ((meta.optProp "previousClose").orElse (meta.optProp "chartPreviousClose")) with
            | none => simp
            | some c =>
              cases JVal.toNumber h ((meta.optProp "regularMarketDayHigh").orElse price) with
              | none => simp
              | some high =>
                cases JVal.toNumber h ((meta.optProp "regularMarketDayLow").orElse price) with
                | none => simp
                | some low => simp [hle]
          · simp only [if_true]
            cases JVal.toNumber h
              ((meta.optProp "previousClose").orElse (meta.optProp "chartPreviousClose")) <;>
            cases JVal.toNumber h ((meta.optProp "regularMarketDayHigh").orElse price) <;>
            cases JVal.toNumber h ((meta.optProp "regularMarketDayLow").orElse price) <;>
            simp [hle]
    · simp [bind, Except.bind, pure, Except.pure, hm]
  · simp [hr, pure, Except.pure]

theorem parseYahooResponse_flags (h : Host) (now : Int) (data : JVal) (q : Quote)
    (hq : parseYahooResponse h now data = some q) :
    q.isDemo = false ∧ q.fromCache = false ∧ q.timestamp = now := by
  rw [parseYahooResponse_eq] at hq
  split_ifs at hq
  split at hq
  · split_ifs at hq
    cases hq
    exact ⟨rfl, rfl, rfl⟩
  · cases hq

/-! ## Rounding -/

theorem roundQ_eq {x : ℚ} {z : ℤ} (h1 : (z : ℚ) - 1 / 2 ≤ x) (h2 : x < z + 1 / 2) :
    JNum.roundQ x = z := by
  unfold JNum.roundQ
  rw [Int.floor_eq_iff]
  constructor <;> linarith

theorem roundQ_intCast (z : ℤ) : JNum.roundQ (z : ℚ) = z :=
  roundQ_eq (by linarith) (by linarith)

theorem round2_fin (x : ℚ) : round2 (.fin x) = .fin ((JNum.roundQ (x * 100) : ℚ) / 100) := by
  simp [round2, JNum.mul, JNum.round, JNum.div]

theorem tryEndpoints_some (h : Host) (env : Env) (eps : List String) (q : Quote)
    (hq : (tryEndpoints h env eps).1 = some q) :
    ∃ ep ∈ eps, ∃ data, env.net ep = .response data ∧
      parseYahooResponse h env.nowParse data = some q := by
  induction eps with
  | nil => simp [tryEndpoints] at hq
  | cons ep rest ih =>
    rw [tryEndpoints] at hq
    split at hq
    · rename_i data hnet
      split at hq
      · split at hq
        · rename_i parsed hparsed
          simp only [Option.some.injEq] at hq
          subst hq
          exact ⟨ep, List.mem_cons_self _ _, data, hnet, hparsed⟩
        · obtain ⟨ep1, hmem, hrest⟩ := ih hq
          exact ⟨ep1, List.mem_cons_of_mem _ hmem, hrest⟩
      · obtain ⟨ep1, hmem, hrest⟩ := ih hq
        exact ⟨ep1, List.mem_cons_of_mem _ hmem, hrest⟩
    · obtain ⟨ep1, hmem, hrest⟩ := ih hq
      exact ⟨ep1, List.mem_cons_of_mem _ hmem, hrest⟩

/-- A freshly produced quote never carries `fromCache`. -/
theorem freshQuote_fromCache (h : Host) (env : Env) (symbol : String) :
    (freshQuote h env symbol).fromCache = false := by
  unfold freshQuote
  split
  · rename_i liveData hlive
    obtain ⟨ep, -, data, -, hparse⟩ := tryEndpoints_some h env _ liveData hlive
    exact (parseYahooResponse_flags h _ data liveData hparse).2.1
  · rfl

/-- A GET that finds no fresh entry under its key takes the miss path. -/
theorem handler_miss (h : Host) (env : Env) (cache : Cache) (symbol : String)
    (hs : symbol ≠ "")
    (hmiss : ∀ e, cache.get (h.toUpperCase symbol) = some e →
      ¬ (env.nowCheck - e.timestamp < CACHE_DURATION)) :
    handler h env cache (getRequest symbol) =
      .ok { response := ⟨200, .quote (freshQuote h env symbol)⟩
            cache := cache.set (h.toUpperCase symbol) ⟨freshQuote h env symbol, env.nowStore⟩
            attempts := (fetchStockData h env symbol).2 } := by
  rw [handler_get h env cache symbol hs]
  cases hget : cache.get (h.toUpperCase symbol) with
  | none => simp only [handlerMiss_eq]
  | some cached => simp only [hmiss cached hget, if_false, handlerMiss_eq]

/-- A GET whose key holds a fresh entry is answered from the cache alone. -/
theorem handler_hit (h : Host) (env : Env) (cache : Cache) (symbol : String)
    (hs : symbol ≠ "") (e : CacheEntry) (hget : cache.get (h.toUpperCase symbol) = some e)
    (hfresh : env.nowCheck - e.timestamp < CACHE_DURATION) :
    handler h env cache (getRequest symbol) =
      .ok ⟨⟨200, .quote { e.data with fromCache := true }⟩, cache, []⟩ := by
  rw [handler_get h env cache symbol hs, hget]
  simp only [hfresh, if_true]

/-- A request that does not touch a key leaves that key's entry as it was. -/
theorem cacheAfter_get (h : Host) (env : Env) (cache : Cache) (req : Request) (key : String)
    (hnt : ¬ touchesKey h key req) : (cacheAfter h env cache req).get key = cache.get key := by
  unfold cacheAfter handler
  split_ifs with hm hsym
  · rfl
  · rfl
  · cases hq : req.symbol with
    | missing => rfl
    | multi xs => rfl
    | single symbol =>
      have hne : key ≠ h.toUpperCase symbol := fun hk => hnt ⟨symbol, hq, hk.symm⟩
      simp only []
      cases cache.get (h.toUpperCase symbol) with
      | none =>
        simp only [handlerMiss_eq]
        exact Cache.get_set_ne _ _ _ _ hne
      | some cached =>
        simp only []
        split_ifs
        · rfl
        · simp only [handlerMiss_eq]
          exact Cache.get_set_ne _ _ _ _ hne

theorem cacheAfterAll_get (h : Host) (key : String) (steps : List (Env × Request)) :
    ∀ cache : Cache, (∀ step ∈ steps, ¬ touchesKey h key step.2) →
      (cacheAfterAll h cache steps).get key = cache.get key := by
  induction steps with
  | nil => intro cache _; rfl
  | cons step rest ih =>
    intro cache hnt
    obtain ⟨env, req⟩ := step
    rw [cacheAfterAll, ih _ (fun st hst => hnt st (List.mem_cons_of_mem _ hst))]
    exact cacheAfter_get h env cache req key (hnt (env, req) (List.mem_cons_self _ _))

/-- C2: after a GET for a non-empty symbol missed the cache and returned a
quote Q, a later GET for the same symbol made less than 30000 ms after Q was
stored, with only requests for other keys in between, requests no upstream URL
and returns Q with the single addition `fromCache = true`. -/
theorem cached_quote_served_within_ttl (h : Host) (symbol : String) (hs : symbol ≠ "")
    (env1 : Env) (cache0 : Cache)
    (hmiss : ∀ e, cache0.get (h.toUpperCase symbol) = some e →
      ¬ (env1.nowCheck - e.timestamp < CACHE_DURATION))
    (between : List (Env × Request))
    (hbetween : ∀ step ∈ between, ¬ touchesKey h (h.toUpperCase symbol) step.2)
    (env2 : Env) (httl : env2.nowCheck - env1.nowStore < 30000) :
    ∃ Q cache1 attempts1,
      handler h env1 cache0 (getRequest symbol) = .ok ⟨⟨200, .quote Q⟩, cache1, attempts1⟩ ∧
      Q.fromCache = false ∧
      handler h env2 (cacheAfterAll h cache1 between) (getRequest symbol) =
        .ok ⟨⟨200, .quote { Q with fromCache := true }⟩, cacheAfterAll h cache1 between, []⟩ := by
  refine ⟨freshQuote h env1 symbol, _, _, handler_miss h env1 cache0 symbol hs hmiss,
    freshQuote_fromCache h env1 symbol, ?_⟩
  have hget := cacheAfterAll_get h (h.toUpperCase symbol) between
    (cache0.set (h.toUpperCase symbol) ⟨freshQuote h env1 symbol, env1.nowStore⟩) hbetween
  rw [Cache.get_set_same] at hget
  exact handler_hit h env2 _ symbol hs _ hget httl

/-- C3: a stored entry aged 30000 ms or more counts as absent: the response
is the freshly produced quote without `fromCache`, the first endpoint is
requested, and afterwards the key holds exactly one entry, the new quote stamped
with the store-time clock read; other keys are untouched. -/
theorem stale_entry_is_refreshed (h : Host) (env : Env) (cache : Cache) (symbol : String)
    (hs : symbol ≠ "") (e : CacheEntry)
    (hget : cache.get (h.toUpperCase symbol) = some e)
    (hstale : env.nowCheck - e.timestamp ≥ 30000)
    (hkeys : (cache.map Prod.fst).Nodup) :
    ∃ r, handler h env cache (getRequest symbol) = .ok r ∧
      r.response = ⟨200, .quote (freshQuote h env symbol)⟩ ∧
      (freshQuote h env symbol).fromCache = false ∧
      r.attempts = (fetchStockData h env symbol).2 ∧
      r.attempts.head? =
        some ("https://query1.finance.yahoo.com/v8/finance/chart/" ++ symbol) ∧
      r.cache.get (h.toUpperCase symbol) = some ⟨freshQuote h env symbol, env.nowStore⟩ ∧
      (r.cache.map Prod.fst).count (h.toUpperCase symbol) = 1 ∧
      (∀ key, key ≠ h.toUpperCase symbol → r.cache.get key = cache.get key) := by
  have hmiss : ∀ e1, cache.get (h.toUpperCase symbol) = some e1 →
      ¬ (env.nowCheck - e1.timestamp < CACHE_DURATION) := by
    intro e1 he1
    rw [hget] at he1
    cases he1
    unfold CACHE_DURATION
    omega
  refine ⟨_, handler_miss h env cache symbol hs hmiss, rfl, freshQuote_fromCache h env symbol,
    rfl, fetchStockData_attempts_head h env symbol, Cache.get_set_same _ _ _,
    Cache.count_key_set _ _ _ hkeys, ?_⟩
  intro key hkey
  exact Cache.get_set_ne _ _ _ _ hkey

/-- C2 at a concrete run: TCS.NS is requested on an empty cache, INFY.NS is
requested in between, and TCS.NS again 19 s after the store. -/
theorem cached_quote_served_within_ttl_witness :
    ∃ Q cache1 attempts1,
      handler utcHost (failingEnv 0 1000) [] (getRequest "TCS.NS") =
        .ok ⟨⟨200, .quote Q⟩, cache1, attempts1⟩ ∧
      Q.fromCache = false ∧
      handler utcHost (failingEnv 20000 0)
          (cacheAfterAll utcHost cache1 [(failingEnv 0 0, getRequest "INFY.NS")])
          (getRequest "TCS.NS") =
        .ok ⟨⟨200, .quote { Q with fromCache := true }⟩,
          cacheAfterAll utcHost cache1 [(failingEnv 0 0, getRequest "INFY.NS")], []⟩ :=
  cached_quote_served_within_ttl utcHost "TCS.NS" (by decide) (failingEnv 0 1000) []
    (fun e he => nomatch he) [(failingEnv 0 0, getRequest "INFY.NS")]
    (by
      intro step hstep
      rw [List.mem_singleton] at hstep
      subst hstep
      rintro ⟨symbol, hsym, hk⟩
      cases hsym
      revert hk
      decide)
    (failingEnv 20000 0) (by decide)

/-- C3 at a concrete state: an entry stored at time 0 is read at time 30000 exactly. -/
theorem stale_entry_is_refreshed_witness :
    ∃ r, handler utcHost (failingEnv 30000 30001) [("TCS.NS", ⟨sampleQuote, 0⟩)]
        (getRequest "TCS.NS") = .ok r ∧
      r.response = ⟨200, .quote (freshQuote utcHost (failingEnv 30000 30001) "TCS.NS")⟩ ∧
      (freshQuote utcHost (failingEnv 30000 30001) "TCS.NS").fromCache = false ∧
      r.attempts = (fetchStockData utcHost (failingEnv 30000 30001) "TCS.NS").2 ∧
      r.attempts.head? =
        some ("https://query1.finance.yahoo.com/v8/finance/chart/" ++ "TCS.NS") ∧
      r.cache.get (utcHost.toUpperCase "TCS.NS") =
        some ⟨freshQuote utcHost (failingEnv 30000 30001) "TCS.NS", 30001⟩ ∧
      (r.cache.map Prod.fst).count (utcHost.toUpperCase "TCS.NS") = 1 ∧
      (∀ key, key ≠ utcHost.toUpperCase "TCS.NS" →
        r.cache.get key = Cache.get [("TCS.NS", ⟨sampleQuote, 0⟩)] key) :=
  stale_entry_is_refreshed utcHost (failingEnv 30000 30001) [("TCS.NS", ⟨sampleQuote, 0⟩)]
    "TCS.NS" (by decide) ⟨sampleQuote, 0⟩ rfl (by decide) (by decide)

/-! ## Demo quotes -/

theorem basePrice_int (symbol : String) : ∃ n : ℤ, basePrice symbol = n ∧ 1000 ≤ n := by
  unfold basePrice
  split_ifs
  · exact ⟨25000, by norm_num, by norm_num⟩
  · exact ⟨82000, by norm_num, by norm_num⟩
  · exact ⟨52000, by norm_num, by norm_num⟩
  · exact ⟨2800, by norm_num, by norm_num⟩
  · exact ⟨4200, by norm_num, by norm_num⟩
  · exact ⟨1800, by norm_num, by norm_num⟩
  · exact ⟨1000, by norm_num, by norm_num⟩

theorem generateDemoData_previousClose (h : Host) (env : Env) (symbol : String) :
    (generateDemoData h env symbol).previousClose = .fin (basePrice symbol) := by
  obtain ⟨n, hn, -⟩ := basePrice_int symbol
  have hr : JNum.roundQ ((n : ℚ) * 100) = n * 100 := by
    have := roundQ_intCast (n * 100)
    push_cast at this
    exact this
  simp only [generateDemoData, round2_fin, hn, hr]
  congr 1
  push_cast
  field_simp

theorem fetchStockData_none (h : Host) (env : Env) (symbol : String)
    (hfail : ∀ ep ∈ endpoints symbol, ∀ data, env.net ep ≠ .response data) :
    (fetchStockData h env symbol).1 = none := by
  cases hf : (fetchStockData h env symbol).1 with
  | none => rfl
  | some q =>
    obtain ⟨ep, hmem, data, hnet, -⟩ := tryEndpoints_some h env _ q hf
    exact absurd hnet (hfail ep hmem data)

/-- C10: the cache key is the uppercased symbol, everything else uses the
symbol as given: when s1 and s2 have the same uppercase form, a GET for s2 made
less than 30000 ms after a cache-missing GET for s1 returns the quote produced
for s1 with `fromCache = true`; the first request's URL holds s1 as given, and
when no endpoint yields a quote, that quote is the demo one with symbol s1 and
previousClose equal to the base price of s1. -/
theorem uppercased_key_serves_first_symbol (h : Host) (s1 s2 : String)
    (hs1 : s1 ≠ "") (hs2 : s2 ≠ "") (hkey : h.toUpperCase s1 = h.toUpperCase s2)
    (env1 env2 : Env) (cache0 : Cache)
    (hmiss : ∀ e, cache0.get (h.toUpperCase s1) = some e →
      ¬ (env1.nowCheck - e.timestamp < CACHE_DURATION))
    (httl : env2.nowCheck - env1.nowStore < 30000) :
    ∃ cache1,
      handler h env1 cache0 (getRequest s1) =
        .ok ⟨⟨200, .quote (freshQuote h env1 s1)⟩, cache1, (fetchStockData h env1 s1).2⟩ ∧
      (fetchStockData h env1 s1).2.head? =
        some ("https://query1.finance.yahoo.com/v8/finance/chart/" ++ s1) ∧
      handler h env2 cache1 (getRequest s2) =
        .ok ⟨⟨200, .quote { freshQuote h env1 s1 with fromCache := true }⟩, cache1, []⟩ ∧
      ((fetchStockData h env1 s1).1 = none →
        (freshQuote h env1 s1).isDemo = true ∧ (freshQuote h env1 s1).symbol = .str s1 ∧
        (freshQuote h env1 s1).previousClose = .fin (basePrice s1)) := by
  refine ⟨_, handler_miss h env1 cache0 s1 hs1 hmiss, fetchStockData_attempts_head h env1 s1,
    ?_, ?_⟩
  · refine handler_hit h env2 _ s2 hs2 ⟨freshQuote h env1 s1, env1.nowStore⟩ ?_ httl
    rw [← hkey]
    exact Cache.get_set_same _ _ _
  · intro hnone
    have hq : freshQuote h env1 s1 = generateDemoData h env1 s1 := by
      unfold freshQuote
      rw [hnone]
    rw [hq]
    exact ⟨rfl, rfl, generateDemoData_previousClose h env1 s1⟩

/-- C10 at the claim's example: with every endpoint rejecting, reliance.ns is
requested and then RELIANCE.NS one second later; the second answer is the
cached demo quote of the first, whose previousClose is the default base 1000,
while RELIANCE.NS on its own has base 2800. -/
theorem uppercased_key_serves_first_symbol_witness :
    basePrice "reliance.ns" = 1000 ∧ basePrice "RELIANCE.NS" = 2800 ∧
    ∃ cache1,
      handler utcHost (failingEnv 0 0) [] (getRequest "reliance.ns") =
        .ok ⟨⟨200, .quote (freshQuote utcHost (failingEnv 0 0) "reliance.ns")⟩, cache1,
          (fetchStockData utcHost (failingEnv 0 0) "reliance.ns").2⟩ ∧
      (fetchStockData utcHost (failingEnv 0 0) "reliance.ns").2.head? =
        some ("https://query1.finance.yahoo.com/v8/finance/chart/" ++ "reliance.ns") ∧
      handler utcHost (failingEnv 1000 0) cache1 (getRequest "RELIANCE.NS") =
        .ok ⟨⟨200, .quote
          { freshQuote utcHost (failingEnv 0 0) "reliance.ns" with fromCache := true }⟩,
          cache1, []⟩ ∧
      ((fetchStockData utcHost (failingEnv 0 0) "reliance.ns").1 = none →
        (freshQuote utcHost (failingEnv 0 0) "reliance.ns").isDemo = true ∧
        (freshQuote utcHost (failingEnv 0 0) "reliance.ns").symbol = .str "reliance.ns" ∧
        (freshQuote utcHost (failingEnv 0 0) "reliance.ns").previousClose =
          .fin (basePrice "reliance.ns")) :=
  ⟨by decide, by decide,
    uppercased_key_serves_first_symbol utcHost "reliance.ns" "RELIANCE.NS" (by decide)
      (by decide) (by decide) (failingEnv 0 0) (failingEnv 1000 0) []
      (fun e he => nomatch he) (by decide)⟩

end NiftyAlert
